import Mathlib

/-
  Verification of the cilium BPF-ipcache synchronization subsystem
  (daemon-side BPFListener: change listener + garbage collection),
  shallowly embedded from the Go source.

  External collaborators (the BPF map `pkg/maps/ipcache`, the in-memory
  `pkg/ipcache` cache and the `net`/`node` helpers) are not part of the
  provided source; they are modelled from the specification where their
  behavior is load-bearing, and otherwise left abstract (the cache lookup
  is an arbitrary function, map-operation failures are an oracle).
-/

namespace Cilium

/-- A Go `net.IP`: a byte slice. `[]` models the nil/empty IP where only
the length matters; `Option IP` is used where the source checks `!= nil`. -/
abbrev IP := List Nat

/-- The 12-byte header of an IPv4-mapped IPv6 address
(Go `net`'s `v4InV6Prefix`). -/
def v4MappedHeader : IP := [0, 0, 0, 0, 0, 0, 0, 0, 0, 0, 0xff, 0xff]

/-- Go `net.IP.To4`: returns the 4-byte form of an IPv4 or IPv4-mapped
IPv6 address, and nil (`none`) otherwise. -/
def ipTo4 (ip : IP) : Option IP :=
  if ip.length = 4 then some ip
  else if ip.length = 16 ∧ ip.take 12 = v4MappedHeader then some (ip.drop 12)
  else none

/-- Go `net.IP.Equal`: equal lengths compare bytewise; a 4-byte form
also equals the 16-byte IPv4-mapped form with the same last 4 bytes. -/
def ipEqual (a b : IP) : Bool :=
  if a.length = b.length then a = b
  else if a.length = 4 ∧ b.length = 16 then
    b.take 12 = v4MappedHeader ∧ a = b.drop 12
  else if a.length = 16 ∧ b.length = 4 then
    a.take 12 = v4MappedHeader ∧ b = a.drop 12
  else false

/-- Go `copy(dst, src)` on byte slices: overwrites the first
`min src.length dst.length` bytes of `dst` with `src`, keeping the rest. -/
def copyBytes (dst src : List Nat) : List Nat :=
  src.take dst.length ++ dst.drop (min src.length dst.length)

/-- Modelled from the spec: the Backing Table key of `pkg/maps/ipcache`
(absent from the provided source) is a binary encoding of the address
bytes and the mask; claims never inspect the encoding, so the key keeps
the two components as given to `NewKey`. -/
structure Key where
  ip : IP
  mask : List Nat
deriving DecidableEq, Repr

/-- Modelled from the spec: `ipcacheMap.NewKey(cidr.IP, cidr.Mask)` derives
the Backing Table key from the prefix components. -/
def NewKey (ip : IP) (mask : List Nat) : Key := ⟨ip, mask⟩

/-- Dotted decimal rendering of a byte list, for the canonical string. -/
def ipDotStr : List Nat → String
  | [] => ""
  | [b] => toString b
  | b :: rest => toString b ++ "." ++ ipDotStr rest

/-- Modelled from the spec: `Key.String()` (absent from the provided
source) yields the canonical prefix string both stores agree on; the
Authoritative Cache is keyed by exactly this string. -/
def Key.toString (k : Key) : String :=
  ipDotStr k.ip ++ "/" ++ ipDotStr k.mask

/-- `ipcacheMap.RemoteEndpointInfo`: the Backing Table value
{identity: uint32, tunnel endpoint: 4 bytes, all-zero = direct routing}. -/
structure RemoteEndpointInfo where
  SecurityIdentity : Nat
  TunnelEndpoint : List Nat
deriving DecidableEq, Repr

/-- The zero-initialized `[4]byte` tunnel endpoint. -/
def tunnelZero : List Nat := [0, 0, 0, 0]

/-- The Backing Table contents: an association list of key/value pairs
(the BPF map, keyed by `Key`). -/
abbrev BPFMap := List (Key × RemoteEndpointInfo)

/-- Modelled from the spec: the Backing Table's replacing point `Update`
(create-or-overwrite, full value replacement, no merge). -/
def mapUpdate (m : BPFMap) (k : Key) (v : RemoteEndpointInfo) : BPFMap :=
  if m.any (fun p => p.1 = k) then
    m.map (fun p => if p.1 = k then (k, v) else p)
  else m ++ [(k, v)]

/-- Modelled from the spec: the Backing Table's point `Delete`; deleting
an absent key is not an error. -/
def mapDelete (m : BPFMap) (k : Key) : BPFMap :=
  m.filter (fun p => !(p.1 = k : Bool))

/-- Point lookup into the Backing Table (first match). -/
def mapLookup (m : BPFMap) (k : Key) : Option RemoteEndpointInfo :=
  (m.find? (fun p => p.1 = k)).map Prod.snd

/-- Failure oracle for the external Backing Table operations: `none`
means the operation succeeds, `some e` that it fails with error `e`.
A failed operation leaves the table unchanged. -/
structure MapOps where
  updateErr : Key → RemoteEndpointInfo → Option String
  deleteErr : Key → Option String
  dumpErr : Option String

/-- The oracle under which every Backing Table operation succeeds. -/
def noFailOps : MapOps :=
  ⟨fun _ _ => none, fun _ => none, none⟩

/-- Modelled from the spec: the provenance tag on an Authoritative Cache
entry (`pkg/ipcache`'s `Source`, absent from the provided source):
key-value store, local agent, or cluster metadata (CIDR). -/
inductive Source
  | FromKVStore
  | FromAgentLocal
  | FromCIDR
deriving DecidableEq, Repr

/-- Modelled from the spec: the Authoritative Cache entry returned by
`LookupByPrefixRLocked` (`pkg/ipcache`'s `Identity`): a numeric identity
plus its provenance. -/
structure Identity where
  ID : Nat
  Source : Source
deriving DecidableEq, Repr

/-- Modelled from the spec: the cache-modification kind delivered to the
listener; `Unknown` stands for any value other than Upsert/Delete (the
`default` case of the source's switch). -/
inductive CacheModification
  | Upsert
  | Delete
  | Unknown
deriving DecidableEq, Repr

/-- A Go `net.IPNet`: address and mask, the prefix the listener is
notified about. -/
structure IPNet where
  ip : IP
  mask : List Nat
deriving DecidableEq, Repr

/-- The value built for an Upsert (source lines 82-95): identity from
`uint32(newID)`, and the tunnel endpoint set to `newHostIP.To4()` exactly
when the host IP is non-nil, has a 4-byte form, and that form does not
equal the node's external IPv4 address. -/
def upsertValue (externalIP : IP) (newHostIP : Option IP) (newID : Nat) :
    RemoteEndpointInfo :=
  let value : RemoteEndpointInfo :=
    { SecurityIdentity := newID % 4294967296, TunnelEndpoint := tunnelZero }
  match newHostIP with
  | some hostIP =>
    match ipTo4 hostIP with
    | some ip4 =>
      if ipEqual ip4 externalIP = false then
        { value with TunnelEndpoint := copyBytes value.TunnelEndpoint ip4 }
      else value
    | none => value
  | none => value

/-- Warning logged when the BPF map update fails. -/
def updateWarning : String := "unable to update bpf map"

/-- Warning logged when the BPF map delete fails. -/
def deleteWarning : String := "unable to delete from bpf map"

/-- Warning logged for an unsupported modification kind. -/
def unsupportedWarning : String := "cache modification type not supported"

/-- Result of one listener invocation: the Backing Table afterwards and
the warning-level log messages emitted (debug logging is not modelled).
The Go method returns nothing: errors never reach the caller. -/
structure ListenerResult where
  bpfMap : BPFMap
  warnings : List String
deriving DecidableEq, Repr

/-- `BPFListener.OnIPIdentityCacheChange` (source lines 62-111): derive
the key from the prefix; on Upsert build `upsertValue` and issue a
replacing update; on Delete issue a point delete; otherwise warn and do
nothing. A failed update or delete is logged and swallowed, leaving the
table unchanged. `oldHostIP` and `oldID` are ignored by the source. -/
def OnIPIdentityCacheChange (ops : MapOps) (externalIP : IP) (m : BPFMap)
    (modType : CacheModification) (cidr : IPNet)
    (oldHostIP newHostIP : Option IP) (oldID : Option Nat) (newID : Nat) :
    ListenerResult :=
  let key := NewKey cidr.ip cidr.mask
  match modType with
  | CacheModification.Upsert =>
    let value := upsertValue externalIP newHostIP newID
    match ops.updateErr key value with
    | some _ => ⟨m, [updateWarning]⟩
    | none => ⟨mapUpdate m key value, []⟩
  | CacheModification.Delete =>
    match ops.deleteErr key with
    | some _ => ⟨m, [deleteWarning]⟩
    | none => ⟨mapDelete m key, []⟩
  | CacheModification.Unknown => ⟨m, [unsupportedWarning]⟩

/-- A Go `map[string]*Key` insertion: replace the binding when the
string key is present, append it otherwise. -/
def strMapInsert (acc : List (String × Key)) (s : String) (k : Key) :
    List (String × Key) :=
  if acc.any (fun p => p.1 = s) then
    acc.map (fun p => if p.1 = s then (s, k) else p)
  else acc ++ [(s, k)]

/-- The dump callback returned by `updateStaleEntriesFunction` (source
lines 118-133), applied to one visited Backing Table entry: compute the
canonical prefix string, look it up in the Authoritative Cache; when the
lookup reports the entry does not exist and the (absent) result's source
is key-value-store or local-agent, record the key in `keysToRemove`. -/
def updateStaleEntriesFunction (lookup : String → Identity × Bool)
    (keysToRemove : List (String × Key)) (kv : Key × RemoteEndpointInfo) :
    List (String × Key) :=
  let keyToIP := (kv.1).toString
  let r := lookup keyToIP
  if r.2 then keysToRemove
  else
    match r.1.Source with
    | Source.FromKVStore => strMapInsert keysToRemove keyToIP kv.1
    | Source.FromAgentLocal => strMapInsert keysToRemove keyToIP kv.1
    | _ => keysToRemove

/-- Observable events of one `garbageCollect` invocation: taking and
releasing the Authoritative Cache read lock, and each point delete
issued against the Backing Table. -/
inductive GCEvent
  | rlock
  | runlock
  | delete (k : Key)
deriving DecidableEq, Repr

/-- State after the deletion loop: the Backing Table, the error returned
(if any), and the delete operations issued, in order. -/
structure DeleteOutcome where
  bpfMap : BPFMap
  err : Option String
  evts : List GCEvent
deriving Repr

/-- The error string `garbageCollect` returns when a point delete of key
`k` fails with `e` (source line 162). -/
def deleteFailMsg (k : Key) (e : String) : String :=
  "error deleting key " ++ k.toString ++ " from ipcache BPF map: " ++ e

/-- The deletion loop of `garbageCollect` (source lines 158-164): delete
each marked key; the first failure returns immediately with an error,
leaving earlier deletions in place. The Go loop iterates a map in
unspecified order; the model fixes insertion order. -/
def deleteLoop (ops : MapOps) : BPFMap → List (String × Key) → DeleteOutcome
  | m, [] => ⟨m, none, []⟩
  | m, (_, k) :: rest =>
    match ops.deleteErr k with
    | some e => ⟨m, some (deleteFailMsg k e), [GCEvent.delete k]⟩
    | none =>
      let r := deleteLoop ops (mapDelete m k) rest
      ⟨r.bpfMap, r.err, GCEvent.delete k :: r.evts⟩

/-- The error string `garbageCollect` returns when the dump fails with
`e` (source line 153). -/
def dumpFailMsg (e : String) : String :=
  "error dumping ipcache BPF map: " ++ e

/-- Result of one `garbageCollect` invocation: the Backing Table
afterwards, the error returned, and the event trace. -/
structure GCResult where
  bpfMap : BPFMap
  err : Option String
  trace : List GCEvent
deriving Repr

/-- `BPFListener.garbageCollect` (source lines 142-166): take the
Authoritative Cache read lock (released by `defer` only when the
function returns); dump the Backing Table through the stale-entry
callback — a dump failure returns the error with no deletions (the
partially filled local `keysToRemove` is discarded); otherwise delete
every marked key, aborting on the first failure. -/
def garbageCollect (lookup : String → Identity × Bool) (ops : MapOps)
    (m : BPFMap) : GCResult :=
  match ops.dumpErr with
  | some e => ⟨m, some (dumpFailMsg e), [GCEvent.rlock, GCEvent.runlock]⟩
  | none =>
    let keysToRemove := m.foldl (updateStaleEntriesFunction lookup) []
    let r := deleteLoop ops m keysToRemove
    ⟨r.bpfMap, r.err, GCEvent.rlock :: r.evts ++ [GCEvent.runlock]⟩

/-- The Backing Table after the deletes for `ks` have all been applied. -/
def applyDeletes (m : BPFMap) (ks : List (String × Key)) : BPFMap :=
  ks.foldl (fun acc p => mapDelete acc p.2) m

/-- The property claimed of the sweep's locking: every point delete is
preceded by the release of the Authoritative Cache read lock. -/
def unlockBeforeDeletes (tr : List GCEvent) : Prop :=
  ∀ j k, tr.get? j = some (GCEvent.delete k) →
    ∃ i, i < j ∧ tr.get? i = some GCEvent.runlock

/-! ### Helper lemmas about the Backing Table operations -/

theorem mapUpdate_cons_ne (p : Key × RemoteEndpointInfo) (rest : BPFMap)
    (k : Key) (v : RemoteEndpointInfo) (hp : p.1 ≠ k) :
    mapUpdate (p :: rest) k v = p :: mapUpdate rest k v := by
  by_cases h : rest.any (fun q => q.1 = k) = true
  · simp [mapUpdate, hp, h]
  · simp [mapUpdate, hp, h]

theorem mapUpdate_cons_eq (p : Key × RemoteEndpointInfo) (rest : BPFMap)
    (k : Key) (v : RemoteEndpointInfo) (hp : p.1 = k) :
    mapUpdate (p :: rest) k v =
      (k, v) :: rest.map (fun q => if q.1 = k then (k, v) else q) := by
  simp [mapUpdate, hp]

theorem mapLookup_cons_ne (p : Key × RemoteEndpointInfo) (rest : BPFMap)
    (k : Key) (hp : p.1 ≠ k) :
    mapLookup (p :: rest) k = mapLookup rest k := by
  simp [mapLookup, List.find?_cons, hp]

theorem mapLookup_mapUpdate (m : BPFMap) (k : Key) (v : RemoteEndpointInfo) :
    mapLookup (mapUpdate m k v) k = some v := by
  induction m with
  | nil => simp [mapUpdate, mapLookup]
  | cons p rest ih =>
    by_cases hp : p.1 = k
    · rw [mapUpdate_cons_eq p rest k v hp]
      simp [mapLookup, List.find?_cons]
    · rw [mapUpdate_cons_ne p rest k v hp, mapLookup_cons_ne p _ k hp]
      exact ih

theorem mapUpdate_idem (m : BPFMap) (k : Key) (v : RemoteEndpointInfo) :
    mapUpdate (mapUpdate m k v) k v = mapUpdate m k v := by
  induction m with
  | nil => simp [mapUpdate]
  | cons p rest ih =>
    by_cases hp : p.1 = k
    · rw [mapUpdate_cons_eq p rest k v hp]
      rw [mapUpdate_cons_eq (k, v) _ k v rfl]
      simp only [List.map_map]
      congr 1
      apply List.map_congr_left
      intro q _
      by_cases hq : q.1 = k <;> simp [hq]
    · rw [mapUpdate_cons_ne p rest k v hp,
        mapUpdate_cons_ne p (mapUpdate rest k v) k v hp, ih]

theorem mapLookup_mapDelete_self (m : BPFMap) (k : Key) :
    mapLookup (mapDelete m k) k = none := by
  induction m with
  | nil => rfl
  | cons p rest ih =>
    by_cases hp : p.1 = k
    · simpa [mapDelete, hp] using ih
    · simpa [mapDelete, List.filter_cons, hp, mapLookup_cons_ne p _ k hp]
        using ih

theorem mapLookup_mapDelete_ne (m : BPFMap) (k k' : Key) (hne : k' ≠ k) :
    mapLookup (mapDelete m k) k' = mapLookup m k' := by
  induction m with
  | nil => rfl
  | cons p rest ih =>
    by_cases hp : p.1 = k
    · have hp' : p.1 ≠ k' := by rw [hp]; exact fun h => hne h.symm
      rw [mapLookup_cons_ne p rest k' hp', ← ih]
      simp [mapDelete, List.filter_cons, hp]
    · by_cases hq : p.1 = k'
      · simp [mapDelete, List.filter_cons, hp, mapLookup, List.find?_cons, hq,
          hne]
      · rw [mapLookup_cons_ne p rest k' hq, ← ih]
        simp [mapDelete, List.filter_cons, hp, mapLookup_cons_ne p _ k' hq]

theorem mapDelete_idem (m : BPFMap) (k : Key) :
    mapDelete (mapDelete m k) k = mapDelete m k := by
  simp [mapDelete, List.filter_filter]

/-! ### Claims -/

/-- C9: for any two Upsert invocations of the Change Listener agreeing on
prefix, new host IP and new identity but with arbitrary old host IP and
old identity, the results are identical; the source ignores the old
values entirely, so the write is independent of them. -/
theorem c9_old_values_irrelevant (ops : MapOps) (externalIP : IP)
    (m : BPFMap) (cidr : IPNet) (oldA oldB newHostIP : Option IP)
    (oidA oidB : Option Nat) (newID : Nat) :
    OnIPIdentityCacheChange ops externalIP m CacheModification.Upsert cidr
        oldA newHostIP oidA newID =
      OnIPIdentityCacheChange ops externalIP m CacheModification.Upsert cidr
        oldB newHostIP oidB newID := rfl

/-- C4: if the full Backing Table dump fails, the reconciliation
invocation reports the failure, performs zero point deletes, and leaves
the Backing Table unchanged. -/
theorem c4_dump_failure (lookup : String → Identity × Bool) (ops : MapOps)
    (m : BPFMap) (e : String) (h : ops.dumpErr = some e) :
    garbageCollect lookup ops m =
      ⟨m, some (dumpFailMsg e), [GCEvent.rlock, GCEvent.runlock]⟩ := by
  unfold garbageCollect
  rw [h]

theorem c4_witness :
    garbageCollect (fun _ => (⟨0, Source.FromCIDR⟩, true))
        ⟨fun _ _ => none, fun _ => none, some "dump failed"⟩
        [(NewKey [10, 0, 0, 0] [255, 255, 255, 0], ⟨1000, tunnelZero⟩)] =
      ⟨[(NewKey [10, 0, 0, 0] [255, 255, 255, 0], ⟨1000, tunnelZero⟩)],
        some (dumpFailMsg "dump failed"),
        [GCEvent.rlock, GCEvent.runlock]⟩ :=
  c4_dump_failure _ _ _ "dump failed" rfl

/-- C6: the Change Listener never fails its caller: a failing Backing
Table update or delete leaves the table unchanged and only emits a
warning, and an unknown modification kind emits a warning with no
mutation. -/
theorem c6_errors_swallowed (ops : MapOps) (externalIP : IP) (m : BPFMap)
    (cidr : IPNet) (oldHostIP newHostIP : Option IP) (oldID : Option Nat)
    (newID : Nat) :
    (ops.updateErr (NewKey cidr.ip cidr.mask)
        (upsertValue externalIP newHostIP newID) ≠ none →
      OnIPIdentityCacheChange ops externalIP m CacheModification.Upsert cidr
          oldHostIP newHostIP oldID newID = ⟨m, [updateWarning]⟩) ∧
    (ops.deleteErr (NewKey cidr.ip cidr.mask) ≠ none →
      OnIPIdentityCacheChange ops externalIP m CacheModification.Delete cidr
          oldHostIP newHostIP oldID newID = ⟨m, [deleteWarning]⟩) ∧
    OnIPIdentityCacheChange ops externalIP m CacheModification.Unknown cidr
        oldHostIP newHostIP oldID newID = ⟨m, [unsupportedWarning]⟩ := by
  refine ⟨?_, ?_, rfl⟩
  · intro h
    simp only [OnIPIdentityCacheChange]
    cases hu : ops.updateErr (NewKey cidr.ip cidr.mask)
        (upsertValue externalIP newHostIP newID) with
    | none => exact absurd hu h
    | some e => rfl
  · intro h
    simp only [OnIPIdentityCacheChange]
    cases hd : ops.deleteErr (NewKey cidr.ip cidr.mask) with
    | none => exact absurd hd h
    | some e => rfl

theorem c6_witness :
    OnIPIdentityCacheChange
        ⟨fun _ _ => some "u", fun _ => some "d", none⟩ [198, 51, 100, 1]
        [(NewKey [10, 0, 0, 0] [255, 255, 255, 0], ⟨1000, tunnelZero⟩)]
        CacheModification.Upsert ⟨[10, 0, 0, 0], [255, 255, 255, 0]⟩
        none (some [203, 0, 113, 5]) none 7 =
      ⟨[(NewKey [10, 0, 0, 0] [255, 255, 255, 0], ⟨1000, tunnelZero⟩)],
        [updateWarning]⟩ ∧
    OnIPIdentityCacheChange
        ⟨fun _ _ => some "u", fun _ => some "d", none⟩ [198, 51, 100, 1]
        [(NewKey [10, 0, 0, 0] [255, 255, 255, 0], ⟨1000, tunnelZero⟩)]
        CacheModification.Delete ⟨[10, 0, 0, 0], [255, 255, 255, 0]⟩
        none (some [203, 0, 113, 5]) none 7 =
      ⟨[(NewKey [10, 0, 0, 0] [255, 255, 255, 0], ⟨1000, tunnelZero⟩)],
        [deleteWarning]⟩ ∧
    OnIPIdentityCacheChange
        ⟨fun _ _ => some "u", fun _ => some "d", none⟩ [198, 51, 100, 1]
        [(NewKey [10, 0, 0, 0] [255, 255, 255, 0], ⟨1000, tunnelZero⟩)]
        CacheModification.Unknown ⟨[10, 0, 0, 0], [255, 255, 255, 0]⟩
        none (some [203, 0, 113, 5]) none 7 =
      ⟨[(NewKey [10, 0, 0, 0] [255, 255, 255, 0], ⟨1000, tunnelZero⟩)],
        [unsupportedWarning]⟩ :=
  ⟨(c6_errors_swallowed _ _ _ _ _ _ _ _).1 (by decide),
   (c6_errors_swallowed _ _ _ _ _ _ _ _).2.1 (by decide),
   (c6_errors_swallowed _ _ _ _ _ _ _ _).2.2⟩

theorem ipTo4_length (ip ip4 : IP) (h : ipTo4 ip = some ip4) :
    ip4.length = 4 := by
  unfold ipTo4 at h
  split at h
  · cases h; omega
  · split at h
    · cases h
      simp only [List.length_drop]
      omega
    · cases h

theorem copyBytes_tunnelZero (src : List Nat) (h : src.length = 4) :
    copyBytes tunnelZero src = src := by
  simp [copyBytes, tunnelZero, h, List.take_of_length_le, Nat.le_of_eq h]

theorem upsertValue_to4_ne (externalIP hostIP ip4 : IP) (newID : Nat)
    (h4 : ipTo4 hostIP = some ip4) (hne : ipEqual ip4 externalIP = false) :
    upsertValue externalIP (some hostIP) newID =
      ⟨newID % 4294967296, ip4⟩ := by
  simp [upsertValue, h4, hne,
    copyBytes_tunnelZero ip4 (ipTo4_length hostIP ip4 h4)]

theorem upsertValue_to4_eq (externalIP hostIP ip4 : IP) (newID : Nat)
    (h4 : ipTo4 hostIP = some ip4) (heq : ipEqual ip4 externalIP = true) :
    upsertValue externalIP (some hostIP) newID =
      ⟨newID % 4294967296, tunnelZero⟩ := by
  simp [upsertValue, h4, heq]

theorem upsertValue_to4_none (externalIP hostIP : IP) (newID : Nat)
    (h4 : ipTo4 hostIP = none) :
    upsertValue externalIP (some hostIP) newID =
      ⟨newID % 4294967296, tunnelZero⟩ := by
  simp [upsertValue, h4]

theorem upsertValue_noHost (externalIP : IP) (newID : Nat) :
    upsertValue externalIP none newID =
      ⟨newID % 4294967296, tunnelZero⟩ := rfl

/-- C2: an Upsert with host IP present whose 4-byte form differs from
the node's external IPv4 address writes an entry with tunnel endpoint
equal to that 4-byte form and identity equal to the new identity; with
the host IP absent, or its 4-byte form equal to the external address,
the written entry's tunnel endpoint is all-zero. -/
theorem c2_upsert_tunnel (ops : MapOps) (externalIP : IP) (m : BPFMap)
    (cidr : IPNet) (oldHostIP : Option IP) (oldID : Option Nat) (newID : Nat)
    (hupd : ∀ v, ops.updateErr (NewKey cidr.ip cidr.mask) v = none)
    (hid : newID < 4294967296) :
    (∀ hostIP ip4, ipTo4 hostIP = some ip4 →
      ipEqual ip4 externalIP = false →
      mapLookup (OnIPIdentityCacheChange ops externalIP m
          CacheModification.Upsert cidr oldHostIP (some hostIP) oldID
          newID).bpfMap (NewKey cidr.ip cidr.mask) = some ⟨newID, ip4⟩) ∧
    (mapLookup (OnIPIdentityCacheChange ops externalIP m
        CacheModification.Upsert cidr oldHostIP none oldID newID).bpfMap
        (NewKey cidr.ip cidr.mask) = some ⟨newID, tunnelZero⟩) ∧
    (∀ hostIP ip4, ipTo4 hostIP = some ip4 →
      ipEqual ip4 externalIP = true →
      mapLookup (OnIPIdentityCacheChange ops externalIP m
          CacheModification.Upsert cidr oldHostIP (some hostIP) oldID
          newID).bpfMap (NewKey cidr.ip cidr.mask) =
        some ⟨newID, tunnelZero⟩) := by
  have hmod : newID % 4294967296 = newID := Nat.mod_eq_of_lt hid
  refine ⟨?_, ?_, ?_⟩
  · intro hostIP ip4 h4 hne
    simp only [OnIPIdentityCacheChange, hupd]
    rw [mapLookup_mapUpdate, upsertValue_to4_ne externalIP hostIP ip4 newID h4
      hne, hmod]
  · simp only [OnIPIdentityCacheChange, hupd]
    rw [mapLookup_mapUpdate, upsertValue_noHost, hmod]
  · intro hostIP ip4 h4 heq
    simp only [OnIPIdentityCacheChange, hupd]
    rw [mapLookup_mapUpdate, upsertValue_to4_eq externalIP hostIP ip4 newID h4
      heq, hmod]

theorem c2_witness :
    mapLookup (OnIPIdentityCacheChange noFailOps [198, 51, 100, 1] []
        CacheModification.Upsert ⟨[10, 0, 0, 0], [255, 255, 255, 0]⟩ none
        (some [203, 0, 113, 5]) none 1000).bpfMap
        (NewKey [10, 0, 0, 0] [255, 255, 255, 0]) =
      some ⟨1000, [203, 0, 113, 5]⟩ ∧
    mapLookup (OnIPIdentityCacheChange noFailOps [198, 51, 100, 1] []
        CacheModification.Upsert ⟨[10, 0, 0, 0], [255, 255, 255, 0]⟩ none
        (some [198, 51, 100, 1]) none 1000).bpfMap
        (NewKey [10, 0, 0, 0] [255, 255, 255, 0]) =
      some ⟨1000, tunnelZero⟩ :=
  ⟨(c2_upsert_tunnel noFailOps [198, 51, 100, 1] []
        ⟨[10, 0, 0, 0], [255, 255, 255, 0]⟩ none none 1000 (fun _ => rfl)
        (by decide)).1 [203, 0, 113, 5] [203, 0, 113, 5] (by decide)
        (by decide),
   (c2_upsert_tunnel noFailOps [198, 51, 100, 1] []
        ⟨[10, 0, 0, 0], [255, 255, 255, 0]⟩ none none 1000 (fun _ => rfl)
        (by decide)).2.2 [198, 51, 100, 1] [198, 51, 100, 1] (by decide)
        (by decide)⟩

/-- C10: an Upsert whose host IP is present but has no 4-byte form (a
non-IPv4-mapped IPv6 address) writes an entry with an all-zero tunnel
endpoint, regardless of the node's external address. -/
theorem c10_no_4byte_form (ops : MapOps) (externalIP : IP) (m : BPFMap)
    (cidr : IPNet) (oldHostIP : Option IP) (oldID : Option Nat)
    (newID : Nat) (hostIP : IP)
    (hupd : ops.updateErr (NewKey cidr.ip cidr.mask)
      (upsertValue externalIP (some hostIP) newID) = none)
    (h4 : ipTo4 hostIP = none) :
    mapLookup (OnIPIdentityCacheChange ops externalIP m
        CacheModification.Upsert cidr oldHostIP (some hostIP) oldID
        newID).bpfMap (NewKey cidr.ip cidr.mask) =
      some ⟨newID % 4294967296, tunnelZero⟩ := by
  simp only [OnIPIdentityCacheChange, hupd]
  rw [mapLookup_mapUpdate, upsertValue_to4_none externalIP hostIP newID h4]

theorem c10_witness :
    mapLookup (OnIPIdentityCacheChange noFailOps [198, 51, 100, 1] []
        CacheModification.Upsert ⟨[10, 0, 0, 0], [255, 255, 255, 0]⟩ none
        (some [32, 1, 13, 184, 0, 0, 0, 0, 0, 0, 0, 0, 0, 0, 0, 1]) none
        1000).bpfMap (NewKey [10, 0, 0, 0] [255, 255, 255, 0]) =
      some ⟨1000 % 4294967296, tunnelZero⟩ :=
  c10_no_4byte_form noFailOps [198, 51, 100, 1] []
    ⟨[10, 0, 0, 0], [255, 255, 255, 0]⟩ none none 1000
    [32, 1, 13, 184, 0, 0, 0, 0, 0, 0, 0, 0, 0, 0, 0, 1] rfl (by decide)

/-- C7: applying the identical Upsert twice through the Change Listener
leaves the Backing Table in the same state as applying it once — the
point update is a full-value replacement. -/
theorem c7_upsert_idempotent (ops : MapOps) (externalIP : IP) (m : BPFMap)
    (cidr : IPNet) (oldHostIP newHostIP : Option IP) (oldID : Option Nat)
    (newID : Nat)
    (hupd : ops.updateErr (NewKey cidr.ip cidr.mask)
      (upsertValue externalIP newHostIP newID) = none) :
    (OnIPIdentityCacheChange ops externalIP
        (OnIPIdentityCacheChange ops externalIP m CacheModification.Upsert
          cidr oldHostIP newHostIP oldID newID).bpfMap
        CacheModification.Upsert cidr oldHostIP newHostIP oldID
        newID).bpfMap =
      (OnIPIdentityCacheChange ops externalIP m CacheModification.Upsert
        cidr oldHostIP newHostIP oldID newID).bpfMap := by
  simp only [OnIPIdentityCacheChange, hupd]
  exact mapUpdate_idem m _ _

theorem c7_witness :
    (OnIPIdentityCacheChange noFailOps [198, 51, 100, 1]
        (OnIPIdentityCacheChange noFailOps [198, 51, 100, 1] []
          CacheModification.Upsert ⟨[10, 0, 0, 0], [255, 255, 255, 0]⟩ none
          (some [203, 0, 113, 5]) none 1000).bpfMap
        CacheModification.Upsert ⟨[10, 0, 0, 0], [255, 255, 255, 0]⟩ none
        (some [203, 0, 113, 5]) none 1000).bpfMap =
      (OnIPIdentityCacheChange noFailOps [198, 51, 100, 1] []
        CacheModification.Upsert ⟨[10, 0, 0, 0], [255, 255, 255, 0]⟩ none
        (some [203, 0, 113, 5]) none 1000).bpfMap :=
  c7_upsert_idempotent noFailOps [198, 51, 100, 1] []
    ⟨[10, 0, 0, 0], [255, 255, 255, 0]⟩ none (some [203, 0, 113, 5]) none
    1000 rfl

/-- C8: a Delete removes exactly the entry whose key derives from the
given prefix and leaves every other entry unchanged; deleting an absent
key is not an error, so a second Delete of the same prefix again reports
no warning and changes nothing. -/
theorem c8_delete_exact (ops : MapOps) (externalIP : IP) (m : BPFMap)
    (cidr : IPNet) (oldHostIP newHostIP : Option IP) (oldID : Option Nat)
    (newID : Nat)
    (hdel : ops.deleteErr (NewKey cidr.ip cidr.mask) = none) :
    (mapLookup (OnIPIdentityCacheChange ops externalIP m
        CacheModification.Delete cidr oldHostIP newHostIP oldID
        newID).bpfMap (NewKey cidr.ip cidr.mask) = none) ∧
    (∀ k', k' ≠ NewKey cidr.ip cidr.mask →
      mapLookup (OnIPIdentityCacheChange ops externalIP m
          CacheModification.Delete cidr oldHostIP newHostIP oldID
          newID).bpfMap k' = mapLookup m k') ∧
    ((OnIPIdentityCacheChange ops externalIP m CacheModification.Delete
        cidr oldHostIP newHostIP oldID newID).warnings = []) ∧
    (OnIPIdentityCacheChange ops externalIP
        (OnIPIdentityCacheChange ops externalIP m CacheModification.Delete
          cidr oldHostIP newHostIP oldID newID).bpfMap
        CacheModification.Delete cidr oldHostIP newHostIP oldID newID =
      ⟨(OnIPIdentityCacheChange ops externalIP m CacheModification.Delete
          cidr oldHostIP newHostIP oldID newID).bpfMap, []⟩) := by
  simp only [OnIPIdentityCacheChange, hdel]
  exact ⟨mapLookup_mapDelete_self m _,
    fun k' hk' => mapLookup_mapDelete_ne m _ k' hk',
    trivial,
    by rw [mapDelete_idem]⟩

theorem c8_witness :
    mapLookup (OnIPIdentityCacheChange noFailOps [198, 51, 100, 1]
        [(NewKey [10, 0, 0, 0] [255, 255, 255, 0], ⟨1000, tunnelZero⟩),
         (NewKey [10, 0, 1, 0] [255, 255, 255, 0], ⟨7, tunnelZero⟩)]
        CacheModification.Delete ⟨[10, 0, 0, 0], [255, 255, 255, 0]⟩ none
        none none 0).bpfMap (NewKey [10, 0, 0, 0] [255, 255, 255, 0]) =
      none ∧
    mapLookup (OnIPIdentityCacheChange noFailOps [198, 51, 100, 1]
        [(NewKey [10, 0, 0, 0] [255, 255, 255, 0], ⟨1000, tunnelZero⟩),
         (NewKey [10, 0, 1, 0] [255, 255, 255, 0], ⟨7, tunnelZero⟩)]
        CacheModification.Delete ⟨[10, 0, 0, 0], [255, 255, 255, 0]⟩ none
        none none 0).bpfMap (NewKey [10, 0, 1, 0] [255, 255, 255, 0]) =
      mapLookup
        [(NewKey [10, 0, 0, 0] [255, 255, 255, 0], ⟨1000, tunnelZero⟩),
         (NewKey [10, 0, 1, 0] [255, 255, 255, 0], ⟨7, tunnelZero⟩)]
        (NewKey [10, 0, 1, 0] [255, 255, 255, 0]) :=
  ⟨(c8_delete_exact noFailOps [198, 51, 100, 1]
      [(NewKey [10, 0, 0, 0] [255, 255, 255, 0], ⟨1000, tunnelZero⟩),
       (NewKey [10, 0, 1, 0] [255, 255, 255, 0], ⟨7, tunnelZero⟩)]
      ⟨[10, 0, 0, 0], [255, 255, 255, 0]⟩ none none none 0 rfl).1,
   (c8_delete_exact noFailOps [198, 51, 100, 1]
      [(NewKey [10, 0, 0, 0] [255, 255, 255, 0], ⟨1000, tunnelZero⟩),
       (NewKey [10, 0, 1, 0] [255, 255, 255, 0], ⟨7, tunnelZero⟩)]
      ⟨[10, 0, 0, 0], [255, 255, 255, 0]⟩ none none none 0 rfl).2.1
      (NewKey [10, 0, 1, 0] [255, 255, 255, 0]) (by decide)⟩

theorem deleteLoop_append_fail (ops : MapOps) (m : BPFMap)
    (pre : List (String × Key)) (s : String) (k : Key)
    (post : List (String × Key)) (e : String)
    (hpre : ∀ p ∈ pre, ops.deleteErr p.2 = none)
    (hk : ops.deleteErr k = some e) :
    deleteLoop ops m (pre ++ (s, k) :: post) =
      ⟨applyDeletes m pre, some (deleteFailMsg k e),
        pre.map (fun p => GCEvent.delete p.2) ++ [GCEvent.delete k]⟩ := by
  induction pre generalizing m with
  | nil => simp [deleteLoop, hk, applyDeletes]
  | cons p pre ih =>
    obtain ⟨ps, pk⟩ := p
    have hp : ops.deleteErr pk = none := hpre (ps, pk) (by simp)
    have hrest : ∀ q ∈ pre, ops.deleteErr q.2 = none :=
      fun q hq => hpre q (List.mem_cons_of_mem _ hq)
    simp [deleteLoop, hp, ih (mapDelete m pk) hrest, applyDeletes]

/-- C5: if the deletion phase of a sweep reaches a key whose point
delete fails, all deletions already applied earlier in the pass stand,
no later marked key is deleted, and the whole invocation reports the
failure. -/
theorem c5_first_delete_failure_aborts (lookup : String → Identity × Bool)
    (ops : MapOps) (m : BPFMap) (pre : List (String × Key)) (s : String)
    (k : Key) (post : List (String × Key)) (e : String)
    (hdump : ops.dumpErr = none)
    (hks : m.foldl (updateStaleEntriesFunction lookup) [] =
      pre ++ (s, k) :: post)
    (hpre : ∀ p ∈ pre, ops.deleteErr p.2 = none)
    (hk : ops.deleteErr k = some e) :
    garbageCollect lookup ops m =
      ⟨applyDeletes m pre, some (deleteFailMsg k e),
        GCEvent.rlock ::
          (pre.map (fun p => GCEvent.delete p.2) ++ [GCEvent.delete k]) ++
          [GCEvent.runlock]⟩ := by
  unfold garbageCollect
  rw [hdump]
  simp only [hks, deleteLoop_append_fail ops m pre s k post e hpre hk]

theorem c5_witness :
    garbageCollect (fun _ => (⟨0, Source.FromKVStore⟩, false))
        ⟨fun _ _ => none,
          fun k => if k = NewKey [10, 0, 0, 2] [255, 255, 255, 255] then
            some "boom" else none, none⟩
        [(NewKey [10, 0, 0, 1] [255, 255, 255, 255], ⟨11, tunnelZero⟩),
         (NewKey [10, 0, 0, 2] [255, 255, 255, 255], ⟨12, tunnelZero⟩)] =
      ⟨applyDeletes
          [(NewKey [10, 0, 0, 1] [255, 255, 255, 255], ⟨11, tunnelZero⟩),
           (NewKey [10, 0, 0, 2] [255, 255, 255, 255], ⟨12, tunnelZero⟩)]
          [("10.0.0.1/255.255.255.255",
            NewKey [10, 0, 0, 1] [255, 255, 255, 255])],
        some (deleteFailMsg (NewKey [10, 0, 0, 2] [255, 255, 255, 255])
          "boom"),
        GCEvent.rlock ::
          ([("10.0.0.1/255.255.255.255",
              NewKey [10, 0, 0, 1] [255, 255, 255, 255])].map
            (fun p => GCEvent.delete p.2) ++
            [GCEvent.delete (NewKey [10, 0, 0, 2] [255, 255, 255, 255])]) ++
          [GCEvent.runlock]⟩ :=
  c5_first_delete_failure_aborts (fun _ => (⟨0, Source.FromKVStore⟩, false))
    ⟨fun _ _ => none,
      fun k => if k = NewKey [10, 0, 0, 2] [255, 255, 255, 255] then
        some "boom" else none, none⟩
    [(NewKey [10, 0, 0, 1] [255, 255, 255, 255], ⟨11, tunnelZero⟩),
     (NewKey [10, 0, 0, 2] [255, 255, 255, 255], ⟨12, tunnelZero⟩)]
    [("10.0.0.1/255.255.255.255",
      NewKey [10, 0, 0, 1] [255, 255, 255, 255])]
    "10.0.0.2/255.255.255.255" (NewKey [10, 0, 0, 2] [255, 255, 255, 255])
    [] "boom" rfl (by decide) (by decide) (by decide)

theorem deleteLoop_evts_deletes (ops : MapOps) (ks : List (String × Key))
    (m : BPFMap) :
    ∃ ds : List Key,
      (deleteLoop ops m ks).evts = ds.map GCEvent.delete := by
  induction ks generalizing m with
  | nil => exact ⟨[], rfl⟩
  | cons p rest ih =>
    obtain ⟨ps, pk⟩ := p
    cases hp : ops.deleteErr pk with
    | some e => exact ⟨[pk], by simp [deleteLoop, hp]⟩
    | none =>
      obtain ⟨ds, hds⟩ := ih (mapDelete m pk)
      exact ⟨pk :: ds, by simp [deleteLoop, hp, hds]⟩

/-- C3 (amended): each reconciliation invocation acquires the
Authoritative Cache read lock first and, because the release is
deferred, releases it only when the invocation returns — after every
point delete of the sweep has been issued; the trace is always the lock
acquisition, then only point deletes, then the release. -/
theorem c3_lock_held_across_deletes (lookup : String → Identity × Bool)
    (ops : MapOps) (m : BPFMap) :
    ∃ ds : List Key,
      (garbageCollect lookup ops m).trace =
        GCEvent.rlock :: ds.map GCEvent.delete ++ [GCEvent.runlock] := by
  unfold garbageCollect
  cases hd : ops.dumpErr with
  | some e => exact ⟨[], rfl⟩
  | none =>
    obtain ⟨ds, hds⟩ :=
      deleteLoop_evts_deletes ops
        (m.foldl (updateStaleEntriesFunction lookup) []) m
    exact ⟨ds, by simp [hds]⟩

/-- C3 (counterexample): on a table with one stale key-value-store
entry, the sweep's trace is lock, delete, unlock — the point delete is
issued before the read lock is released, refuting the claim that the
lock is released before any deletion. -/
theorem c3_counterexample :
    ¬ unlockBeforeDeletes
        (garbageCollect (fun _ => (⟨0, Source.FromKVStore⟩, false))
          noFailOps
          [(NewKey [10, 0, 0, 0] [255, 255, 255, 0],
            ⟨1000, tunnelZero⟩)]).trace := by
  intro h
  have htr :
      (garbageCollect (fun _ => (⟨0, Source.FromKVStore⟩, false)) noFailOps
        [(NewKey [10, 0, 0, 0] [255, 255, 255, 0],
          ⟨1000, tunnelZero⟩)]).trace =
      [GCEvent.rlock,
        GCEvent.delete (NewKey [10, 0, 0, 0] [255, 255, 255, 0]),
        GCEvent.runlock] := by decide
  rw [htr] at h
  obtain ⟨i, hi, hget⟩ :=
    h 1 (NewKey [10, 0, 0, 0] [255, 255, 255, 0]) rfl
  have hi0 : i = 0 := Nat.lt_one_iff.mp hi
  subst hi0
  simp at hget

theorem mem_strMapInsert (acc : List (String × Key)) (s' : String) (k : Key)
    (s : String) :
    s ∈ (strMapInsert acc s' k).map Prod.fst ↔
      s ∈ acc.map Prod.fst ∨ s = s' := by
  unfold strMapInsert
  by_cases h : acc.any (fun p => p.1 = s') = true
  · rw [if_pos h]
    have hmem : s' ∈ acc.map Prod.fst := by
      obtain ⟨p, hp, hps⟩ := List.any_eq_true.mp h
      exact List.mem_map.mpr ⟨p, hp, of_decide_eq_true hps⟩
    have hfst : (acc.map (fun p => if p.1 = s' then (s', k) else p)).map
        Prod.fst = acc.map Prod.fst := by
      rw [List.map_map]
      apply List.map_congr_left
      intro p _
      by_cases hp : p.1 = s' <;> simp [hp]
    rw [hfst]
    constructor
    · exact Or.inl
    · rintro (hs | rfl)
      · exact hs
      · exact hmem
  · rw [if_neg h]
    simp [List.map_append, List.mem_append, eq_comm]

theorem mem_map_fst_iff (l : List (String × Key)) (s : String) :
    s ∈ l.map Prod.fst ↔ ∃ x, (s, x) ∈ l := by
  rw [List.mem_map]
  constructor
  · rintro ⟨⟨a, b⟩, hp, rfl⟩
    exact ⟨b, hp⟩
  · rintro ⟨x, hx⟩
    exact ⟨(s, x), hx, rfl⟩

theorem mem_updateStale (lookup : String → Identity × Bool)
    (acc : List (String × Key)) (kv : Key × RemoteEndpointInfo)
    (s : String) :
    s ∈ (updateStaleEntriesFunction lookup acc kv).map Prod.fst ↔
      s ∈ acc.map Prod.fst ∨
        (kv.1.toString = s ∧ (lookup s).2 = false ∧
          ((lookup s).1.Source = Source.FromKVStore ∨
            (lookup s).1.Source = Source.FromAgentLocal)) := by
  unfold updateStaleEntriesFunction
  by_cases hs : kv.1.toString = s
  · rw [hs]
    cases hex : (lookup s).2
    · cases hsrc : (lookup s).1.Source
      · simp [hex, hsrc]
        rw [← mem_map_fst_iff, mem_strMapInsert]
        exact Or.inr rfl
      · simp [hex, hsrc]
        rw [← mem_map_fst_iff, mem_strMapInsert]
        exact Or.inr rfl
      · simp [hex, hsrc]
    · simp [hex]
  · have hs' : ¬ (s = kv.1.toString) := fun h => hs h.symm
    cases hex : (lookup kv.1.toString).2
    · cases hsrc : (lookup kv.1.toString).1.Source
      · simp [hex, hsrc, hs]
        rw [← mem_map_fst_iff, ← mem_map_fst_iff, mem_strMapInsert]
        simp [hs']
      · simp [hex, hsrc, hs]
        rw [← mem_map_fst_iff, ← mem_map_fst_iff, mem_strMapInsert]
        simp [hs']
      · simp [hex, hsrc, hs]
    · simp [hex, hs]

theorem mem_foldl_stale (lookup : String → Identity × Bool) (m : BPFMap)
    (acc : List (String × Key)) (s : String) :
    s ∈ ((m.foldl (updateStaleEntriesFunction lookup) acc).map Prod.fst) ↔
      s ∈ acc.map Prod.fst ∨
        ∃ kv, kv ∈ m ∧ kv.1.toString = s ∧ (lookup s).2 = false ∧
          ((lookup s).1.Source = Source.FromKVStore ∨
            (lookup s).1.Source = Source.FromAgentLocal) := by
  induction m generalizing acc with
  | nil => simp
  | cons kv rest ih =>
    rw [List.foldl_cons, ih, mem_updateStale]
    constructor
    · rintro ((h | h) | h)
      · exact Or.inl h
      · exact Or.inr ⟨kv, List.mem_cons_self _ _, h⟩
      · obtain ⟨kv', hkv', hrest⟩ := h
        exact Or.inr ⟨kv', List.mem_cons_of_mem _ hkv', hrest⟩
    · rintro (h | ⟨kv', hkv', hrest⟩)
      · exact Or.inl (Or.inl h)
      · rcases List.mem_cons.mp hkv' with rfl | hkv'
        · exact Or.inl (Or.inr hrest)
        · exact Or.inr ⟨kv', hkv', hrest⟩

/-- C1: a canonical prefix string is marked for removal by the dump
callback if and only if some visited Backing Table entry carries that
string, its Authoritative Cache lookup reports it does not exist, and
the (absent) result's source is key-value-store or local-agent; an
entry whose lookup reports it exists never causes a marking. -/
theorem c1_stale_marking (lookup : String → Identity × Bool) (m : BPFMap)
    (s : String) :
    s ∈ ((m.foldl (updateStaleEntriesFunction lookup) []).map Prod.fst) ↔
      ∃ kv, kv ∈ m ∧ kv.1.toString = s ∧ (lookup s).2 = false ∧
        ((lookup s).1.Source = Source.FromKVStore ∨
          (lookup s).1.Source = Source.FromAgentLocal) := by
  rw [mem_foldl_stale]
  simp

theorem c1_witness :
    "10.0.0.0/255.255.255.0" ∈
      (([(NewKey [10, 0, 0, 0] [255, 255, 255, 0],
          (⟨1000, tunnelZero⟩ : RemoteEndpointInfo))].foldl
        (updateStaleEntriesFunction
          (fun _ => (⟨0, Source.FromKVStore⟩, false))) []).map Prod.fst) :=
  (c1_stale_marking _ _ _).mpr
    ⟨(NewKey [10, 0, 0, 0] [255, 255, 255, 0], ⟨1000, tunnelZero⟩),
      List.mem_singleton.mpr rfl, by decide, rfl, Or.inl rfl⟩

end Cilium
